import Mathlib

/-
Verification of the extension lifecycle core of `jupyter_server`
(`jupyter_server/extension/application.py`).

The definitions below are a shallow embedding of the relevant parts of the
source file.  Pure string manipulation (URL joining, pattern rewriting) is
embedded as Lean functions on `String`; the stateful lifecycle methods of
`ExtensionApp` (`_link_jupyter_server_extension`, `initialize` and its
`_prepare_*` helpers, `start`, `_load_jupyter_server_extension`,
`launch_instance`) are embedded as explicit state-passing functions that
also emit a trace of the externally visible effects they perform, in the
order the source performs them.  Failures (a raised Python exception) are
represented by an explicit error value carried next to the state reached
at the point of the raise, so that "no mutation happened before the raise"
is a provable statement about the returned state.
-/

set_option autoImplicit false

namespace JupyterExt

/-- Values stored in handler-option dictionaries and in settings maps.
`extRef n` stands for a reference to the extension object named `n`
(the source stores `self` under the key `self.name`); `configObj n`
stands for the `Config` object built by `_prepare_config` for the
extension named `n`. -/
inductive OptVal where
  | str (s : String)
  | strList (l : List String)
  | extRef (name : String)
  | configObj (name : String)
  deriving DecidableEq, Repr

/-- A Python dict with string keys, as an association list without
duplicate keys (insertion order preserved, as in Python). -/
abbrev Dict := List (String × OptVal)

/-- Python `d[k] = v`: replace the value at the first occurrence of `k`,
or append a new binding at the end. -/
def dictSet : Dict → String → OptVal → Dict
  | [], k, v => [(k, v)]
  | (k', v') :: rest, k, v =>
      if k' = k then (k, v) :: rest else (k', v') :: dictSet rest k v

/-- Python `d.get(k)`: value at the first occurrence of `k`, if any. -/
def dictGet : Dict → String → Option OptVal
  | [], _ => none
  | (k', v') :: rest, k => if k' = k then some v' else dictGet rest k

/-- Python `d1.update(d2)`: set every binding of `d2` into `d1`, in order. -/
def dictUpdate (d1 d2 : Dict) : Dict :=
  d2.foldl (fun acc p => dictSet acc p.1 p.2) d1

/-- Python `s.strip(slash)`: remove leading and trailing slash characters. -/
def stripSlashes (s : String) : String :=
  String.mk (((s.toList.dropWhile (fun c => c = '/')).reverse.dropWhile
    (fun c => c = '/')).reverse)

/-- Whether a string starts with a slash (string functions are written on
the underlying character list so that they evaluate by reduction). -/
def headIsSlash (s : String) : Bool :=
  match s.toList with
  | c :: _ => c == '/'
  | [] => false

/-- Whether a string ends with a slash. -/
def lastIsSlash (s : String) : Bool :=
  match s.toList.reverse with
  | c :: _ => c == '/'
  | [] => false

/-- Joining a list of strings with single slashes between them. -/
def slashJoin : List String → String
  | [] => ""
  | [s] => s
  | s :: rest => s ++ "/" ++ slashJoin rest

/-- Modelled from the spec: `url_path_join` lives in `jupyter_server.utils`,
which is not among the given sources.  Per the spec, pattern rewriting is
pure string-prefixing of the declared pattern with the base URL, and the
scenario sentences fix the exact joining behavior: each piece is stripped
of surrounding slashes, empty pieces are dropped, the rest are joined by
single slashes, and the leading slash of the first piece and the trailing
slash of the last piece are preserved. -/
def url_path_join (pieces : List String) : String :=
  let initial := headIsSlash (pieces.headD "")
  let final := lastIsSlash (pieces.getLastD "")
  let stripped := (pieces.map stripSlashes).filter (fun s => !s.toList.isEmpty)
  let joined := slashJoin stripped
  let joined := if initial then "/" ++ joined else joined
  let joined := if final then joined ++ "/" else joined
  if joined = "//" then "/" else joined

/-- A Tornado handler class.  `hid` is the identity of the class object;
`isExtensionHandlerSubclass` records the result of
`issubclass(handler, ExtensionHandlerMixin)`. -/
structure Handler where
  hid : Nat
  isExtensionHandlerSubclass : Bool
  deriving DecidableEq, Repr

/-- One element of `ExtensionApp.handlers` as declared by the extension:
a `(pattern, handler)` or `(pattern, handler, kwargs)` tuple.  The source
reads the third component inside `try ... except IndexError`, hence the
`Option`. -/
structure RouteDecl where
  pattern : String
  handler : Handler
  options : Option Dict
  deriving DecidableEq, Repr

/-- One fully rewritten entry handed to `webapp.add_handlers`. -/
structure RouteEntry where
  pattern : String
  handler : Handler
  options : Dict
  deriving DecidableEq, Repr

/-- The Tornado web application owned by the host.  `base_url` models
`webapp.settings["base_url"]` (the host keeps it equal to
`serverapp.base_url`), `static_handler_class` models
`webapp.settings["static_handler_class"]`, `settings` holds the remaining
settings keys, and `handlerBatches` records each batch passed to
`add_handlers`, in call order (Tornado appends each batch to its rule
table). -/
structure WebApp where
  base_url : String
  static_handler_class : Handler
  settings : Dict
  handlerBatches : List (List RouteEntry)
  deriving DecidableEq, Repr

/-- The flattened route table of the host: all appended batches in order. -/
def WebApp.routeTable (w : WebApp) : List RouteEntry :=
  w.handlerBatches.flatten

/-- One layer merged into a traitlets config during linking:
the extension config file, the host config, the residual command line,
or the extension config merged upward into the host. -/
inductive CfgLayer where
  | file
  | host
  | cli
  | ext
  deriving DecidableEq, Repr

/-- The state of one `ExtensionApp` instance.  `linked` is whether
`self.serverapp` is set (the model is single-host, so a linked extension
refers to the one host of the world); `static_url_cfg` models the
`static_url_prefix` trait: `some v` when explicitly configured, `none`
when the `_default_static_url_prefix` dynamic default applies;
`configLayers` records the config layers merged into the instance. -/
structure ExtensionApp where
  name : String
  linked : Bool
  static_paths : List String
  template_paths : List String
  handlers : List RouteDecl
  static_url_cfg : Option String
  settings : Dict
  configLayers : List CfgLayer
  deriving DecidableEq, Repr

/-- Reading the `static_url_prefix` trait: the configured value, or the
`_default_static_url_prefix` computation
`url_path_join(self.serverapp.base_url, "static/" + name + "/")`. -/
def ExtensionApp.staticUrl (ext : ExtensionApp) (serverBaseUrl : String) : String :=
  match ext.static_url_cfg with
  | some v => v
  | none => url_path_join [serverBaseUrl, "static/" ++ ext.name ++ "/"]

/-- The host `ServerApp`.  `extension_points` models the extension
manager registry (name to already-loaded extension instance); the
manager itself is outside the given sources, the spec describes it as
"given a name, may already hold a loaded Extension instance".
`configLayers` records config layers merged into the host by
`serverapp.update_config`. -/
structure ServerApp where
  web_app : WebApp
  extension_points : List (String × ExtensionApp)
  configLayers : List CfgLayer
  started : Bool
  deriving DecidableEq, Repr

def ServerApp.base_url (s : ServerApp) : String :=
  s.web_app.base_url

/-- Externally visible effects of the lifecycle methods, in source order. -/
inductive Ev where
  | setServerapp
  | loadConfigFile
  | updateConfigFromServer
  | parseCommandLine
  | serverUpdateConfig
  | prepareConfig
  | hookTemplates
  | hookSettings
  | hookHandlers
  | addHandlers (batchSize : Nat)
  | constructExtension
  | superStart
  | serverStart
  deriving DecidableEq, Repr

def Ev.isHook : Ev → Bool
  | .hookTemplates => true
  | .hookSettings => true
  | .hookHandlers => true
  | _ => false

def Ev.isAddHandlers : Ev → Bool
  | .addHandlers _ => true
  | _ => false

/-- A raised Python exception: the designated
`JupyterServerExtensionException` precondition error, or an
`AttributeError` from dereferencing the unset `serverapp` attribute. -/
inductive JErr where
  | jupyterServerExtensionException (msg : String)
  | attributeError (attr : String)
  deriving DecidableEq, Repr

/-- Whether an error is the designated precondition error of the core. -/
def JErr.isPreconditionError : JErr → Bool
  | .jupyterServerExtensionException _ => true
  | .attributeError _ => false

/-- The message raised by `ExtensionApp.initialize` when `serverapp` is unset. -/
def noServerappMsg : String :=
  "This extension has no attribute serverapp. Try calling .link_to_serverapp() before calling .initialize()."

/-- Result of one lifecycle operation: the error raised (if any), the
extension state and host state reached at the end or at the point of the
raise, and the emitted effect trace. -/
structure StepResult where
  err : Option JErr
  ext : ExtensionApp
  server : ServerApp
  events : List Ev
  deriving DecidableEq, Repr

/-- The body of the per-route loop of `_prepare_handlers`: rewrite the
declared pattern with `url_path_join(webapp.settings["base_url"], pattern)`,
start from empty kwargs, inject `name` when the handler subclasses
`ExtensionHandlerMixin`, then `kwargs.update` with the declared third tuple
component when present. -/
def buildHandlerEntry (name : String) (baseUrl : String) (item : RouteDecl) : RouteEntry :=
  let pattern := url_path_join [baseUrl, item.pattern]
  let handler := item.handler
  let kwargs : Dict := []
  let kwargs := if handler.isExtensionHandlerSubclass then
      dictSet kwargs "name" (OptVal.str name)
    else kwargs
  let kwargs :=
    match item.options with
    | some opts => dictUpdate kwargs opts
    | none => kwargs
  ⟨pattern, handler, kwargs⟩

/-- The static endpoint synthesized by `_prepare_handlers` when
`static_paths` is non-empty: pattern
`url_path_join(self.static_url_prefix, "(.*)")`, the host's
`static_handler_class`, and kwargs binding `path` to the declared static
paths. -/
def staticHandlerEntry (ext : ExtensionApp) (w : WebApp) : RouteEntry :=
  ⟨url_path_join [ext.staticUrl w.base_url, "(.*)"],
   w.static_handler_class,
   [("path", OptVal.strList ext.static_paths)]⟩

/-- The batch `new_handlers` built by one `_prepare_handlers` call: the
declared routes rewritten in declaration order, followed by the single
synthesized static entry when static paths are declared. -/
def newHandlers (ext : ExtensionApp) (w : WebApp) : List RouteEntry :=
  if 0 < ext.static_paths.length then
    ext.handlers.map (buildHandlerEntry ext.name w.base_url) ++ [staticHandlerEntry ext w]
  else
    ext.handlers.map (buildHandlerEntry ext.name w.base_url)

/-- `ExtensionApp._prepare_config`: builds the extension `Config` object
from the class-own traits and stores it in the settings under
`"name_config"` (source: `"{}_config".format(self.name)`). -/
def prepare_config (ext : ExtensionApp) : ExtensionApp :=
  { ext with settings := dictSet ext.settings (ext.name ++ "_config") (OptVal.configObj ext.name) }

/-- `ExtensionApp._prepare_templates`: stores the template paths in the
settings under `"name_template_paths"` when templates are declared, then
invokes the `initialize_templates` hook (in this order in the base
class). -/
def prepare_templates (ext : ExtensionApp) : ExtensionApp × List Ev :=
  let ext :=
    if 0 < ext.template_paths.length then
      let s := dictSet ext.settings (ext.name ++ "_template_paths") (OptVal.strList ext.template_paths)
      { ext with settings := s }
    else ext
  (ext, [Ev.hookTemplates])

/-- `ExtensionApp._prepare_settings`: copies `webapp.settings` into the
extension settings, adds the `"name_static_paths"` and `"name"` keys,
invokes the `initialize_settings` hook (a pass in the base class), then
updates `webapp.settings` from the extension settings. -/
def prepare_settings (ext : ExtensionApp) (w : WebApp) : ExtensionApp × WebApp × List Ev :=
  let ext := { ext with settings := dictUpdate ext.settings w.settings }
  let ext := { ext with settings := dictSet ext.settings (ext.name ++ "_static_paths") (OptVal.strList ext.static_paths) }
  let ext := { ext with settings := dictSet ext.settings ext.name (OptVal.extRef ext.name) }
  let w := { w with settings := dictUpdate w.settings ext.settings }
  (ext, w, [Ev.hookSettings])

/-- `ExtensionApp._prepare_handlers`: invokes the `initialize_handlers`
hook (a pass in the base class), builds the batch `new_handlers`, and
performs the single `webapp.add_handlers(".*$", new_handlers)` call,
which appends the batch to the route table. -/
def prepare_handlers (ext : ExtensionApp) (w : WebApp) : WebApp × List Ev :=
  let batch := newHandlers ext w
  ({ w with handlerBatches := w.handlerBatches ++ [batch] },
   [Ev.hookHandlers, Ev.addHandlers batch.length])

/-- `ExtensionApp.initialize`: raises the
`JupyterServerExtensionException` precondition error when `serverapp` is
unset, otherwise runs `_prepare_config`, `_prepare_templates`,
`_prepare_settings`, `_prepare_handlers` in that order. -/
def ExtensionApp.initializeOp (ext : ExtensionApp) (s : ServerApp) : StepResult :=
  if ext.linked = false then
    ⟨some (JErr.jupyterServerExtensionException noServerappMsg), ext, s, []⟩
  else
    let ext1 := prepare_config ext
    let (ext2, evT) := prepare_templates ext1
    let (ext3, w1, evS) := prepare_settings ext2 s.web_app
    let (w2, evH) := prepare_handlers ext3 w1
    ⟨none, ext3, { s with web_app := w2 }, Ev.prepareConfig :: (evT ++ evS ++ evH)⟩

/-- `ExtensionApp._prepare_handlers` invoked as the standalone
route-registration step: its first statement
`webapp = self.serverapp.web_app` raises an `AttributeError` on the unset
`serverapp` attribute before anything else happens. -/
def ExtensionApp.prepareHandlersOp (ext : ExtensionApp) (s : ServerApp) : StepResult :=
  if ext.linked = false then
    ⟨some (JErr.attributeError "web_app"), ext, s, []⟩
  else
    let (w, ev) := prepare_handlers ext s.web_app
    ⟨none, ext, { s with web_app := w }, ev⟩

/-- `ExtensionApp.start`: `super().start()` (the `JupyterApp` start, an
external collaborator that does not touch the host), then
`self.serverapp.start()`, which raises an `AttributeError` when
`serverapp` is unset and otherwise delegates to the host start
procedure. -/
def ExtensionApp.startOp (ext : ExtensionApp) (s : ServerApp) : StepResult :=
  if ext.linked = false then
    ⟨some (JErr.attributeError "start"), ext, s, [Ev.superStart]⟩
  else
    ⟨none, ext, { s with started := true }, [Ev.superStart, Ev.serverStart]⟩

/-- `ExtensionApp._link_jupyter_server_extension`, statement by statement:
set `self.serverapp`; `self.load_config_file()` (the extension file
layer); `self.update_config(self.serverapp.config)` (host config into
extension config); `self.parse_command_line(self.serverapp.extra_args)`
(the residual command line scoped to the extension);
`self.serverapp.update_config(self.config)` (extension config into host
config).  The traitlets merge machinery is an external collaborator; the
model records each merged layer and the effect order. -/
def ExtensionApp.linkOp (ext : ExtensionApp) (s : ServerApp) : ExtensionApp × ServerApp × List Ev :=
  let ext := { ext with linked := true }
  let ext := { ext with configLayers := ext.configLayers ++ [CfgLayer.file] }
  let ext := { ext with configLayers := ext.configLayers ++ [CfgLayer.host] }
  let ext := { ext with configLayers := ext.configLayers ++ [CfgLayer.cli] }
  let s := { s with configLayers := s.configLayers ++ [CfgLayer.ext] }
  (ext, s,
   [Ev.setServerapp, Ev.loadConfigFile, Ev.updateConfigFromServer,
    Ev.parseCommandLine, Ev.serverUpdateConfig])

/-- The class-level data of an `ExtensionApp` subclass, from which `cls()`
constructs a fresh unlinked instance. -/
structure ExtClass where
  name : String
  static_paths : List String
  template_paths : List String
  handlers : List RouteDecl
  static_url_cfg : Option String
  deriving DecidableEq, Repr

/-- `cls()`: a fresh instance with no linked host, empty settings and no
merged config layers. -/
def ExtClass.new (cls : ExtClass) : ExtensionApp :=
  ⟨cls.name, false, cls.static_paths, cls.template_paths, cls.handlers,
   cls.static_url_cfg, [], []⟩

/-- Modelled from the spec: the extension manager registry lookup
`extension_manager.extension_points[cls.name]` (the manager is not among
the given sources; the spec describes it as "given a name, may already
hold a loaded Extension instance").  `point.app` is the held instance. -/
def lookupRegistry (reg : List (String × ExtensionApp)) (n : String) : Option ExtensionApp :=
  (reg.find? (fun p => p.1 == n)).map (fun p => p.2)

/-- `ExtensionApp._load_jupyter_server_extension`: reuse the instance held
by the extension manager registry under `cls.name` if present; otherwise
construct a fresh instance and link it.  In both branches
`extension.initialize()` then runs. -/
def ExtClass.loadOp (cls : ExtClass) (s : ServerApp) : StepResult :=
  match lookupRegistry s.extension_points cls.name with
  | some e => e.initializeOp s
  | none =>
      let e := cls.new
      let (e1, s1, evL) := e.linkOp s
      let r := e1.initializeOp s1
      { r with events := Ev.constructExtension :: (evL ++ r.events) }

/-- Python `\w` for the ASCII arguments that occur on a command line. -/
def wordChar (c : Char) : Bool :=
  c.isAlphanum || c = '_'

/-- Tail of the regular expression `\w(-?\w)*`: after a word character,
repetitions of an optional hyphen followed by a word character. -/
def subcRegexAux : List Char → Bool
  | [] => true
  | '-' :: c :: rest => wordChar c && subcRegexAux rest
  | c :: rest => wordChar c && subcRegexAux rest

/-- Whether `re.match` of the anchored subcommand pattern accepts `s`:
a word character followed by optional-hyphen-then-word-character
repetitions, covering the whole string. -/
def subcRegexMatch (s : String) : Bool :=
  match s.toList with
  | [] => false
  | c :: rest => wordChar c && subcRegexAux rest

/-- The class-level data of the launched application that
`launch_instance` consults: its declared subcommand names. -/
structure AppClass where
  subcommands : List String
  deriving DecidableEq, Repr

/-- `_preparse_for_subcommand`: with a non-empty argument vector and a
class that declares subcommands, the first argument dispatches when it
matches the subcommand pattern and is a declared subcommand. -/
def hasSubcommand (cls : AppClass) (argv : List String) : Bool :=
  match argv with
  | [] => false
  | subc :: _ => (!cls.subcommands.isEmpty) && subcRegexMatch subc
      && cls.subcommands.contains subc

/-- `interpreted_argv` of `_preparse_for_stopping_flags`: the arguments up
to the first `--` separator (Python `argv[:argv.index(chr(45) ++ chr(45))]`,
or the whole vector when absent). -/
def interpretedArgv (argv : List String) : List String :=
  argv.takeWhile (fun a => a != "--")

/-- The help check of `_preparse_for_stopping_flags`. -/
def helpRequested (ia : List String) : Bool :=
  ia.any (fun x => x == "-h" || x == "--help-all" || x == "--help")

/-- The version check of `_preparse_for_stopping_flags`. -/
def versionRequested (ia : List String) : Bool :=
  ia.contains "--version" || ia.contains "-V"

/-- The generate-config check of `_preparse_for_stopping_flags`. -/
def generateConfigRequested (ia : List String) : Bool :=
  ia.contains "--generate-config"

/-- Whether `_preparse_for_stopping_flags` exits the process: any of its
three checks fires on the arguments before the first `--`. -/
def stoppingFlag (argv : List String) : Bool :=
  let ia := interpretedArgv argv
  helpRequested ia || versionRequested ia || generateConfigRequested ia

/-- How a `launch_instance` call ends: delegated to a subcommand app,
exited via a stopping flag before any host exists, or a host was
constructed, initialized and started. -/
inductive LaunchOutcome where
  | subappStarted
  | exited
  | serverStarted
  deriving DecidableEq, Repr

/-- Whether the outcome constructed a host. -/
def LaunchOutcome.constructsHost : LaunchOutcome → Bool
  | .serverStarted => true
  | _ => false

/-- `ExtensionApp.launch_instance`: check for a subcommand and delegate;
otherwise check the stopping flags and exit; otherwise build a server via
`initialize_server` and start it.  The server construction itself
(`ServerApp.instance` and `initialize`) is outside the given sources and
is modelled from the spec as the host-constructing outcome. -/
def launch_instance (cls : AppClass) (argv : List String) : LaunchOutcome :=
  if hasSubcommand cls argv then LaunchOutcome.subappStarted
  else if stoppingFlag argv then LaunchOutcome.exited
  else LaunchOutcome.serverStarted

/-- Lemmas about the dict operations, used for the option-merge claims. -/
theorem dictGet_dictSet_self (d : Dict) (k : String) (v : OptVal) :
    dictGet (dictSet d k v) k = some v := by
  induction d with
  | nil => simp [dictSet, dictGet]
  | cons p rest ih =>
      obtain ⟨k', v'⟩ := p
      by_cases h : k' = k
      · simp [dictSet, h, dictGet]
      · simp [dictSet, h, dictGet, ih]

theorem dictGet_dictSet_other (d : Dict) (k k' : String) (v : OptVal) (hne : k' ≠ k) :
    dictGet (dictSet d k' v) k = dictGet d k := by
  induction d with
  | nil => simp [dictSet, dictGet, hne]
  | cons p rest ih =>
      obtain ⟨k0, v0⟩ := p
      by_cases h : k0 = k'
      · simp [dictSet, h, dictGet, hne]
      · by_cases h2 : k0 = k
        · simp [dictSet, h, dictGet, h2, Ne.symm hne]
        · simp [dictSet, h, dictGet, h2, ih]

theorem dictGet_eq_none_of_not_mem (d : Dict) (k : String)
    (h : k ∉ d.map Prod.fst) : dictGet d k = none := by
  induction d with
  | nil => simp [dictGet]
  | cons p rest ih =>
      obtain ⟨k0, v0⟩ := p
      simp only [List.map_cons, List.mem_cons] at h
      push_neg at h
      have hne : k0 ≠ k := fun he => h.1 he.symm
      simp [dictGet, hne, ih h.2]

theorem dictGet_dictUpdate_of_none (d1 d2 : Dict) (k : String)
    (h : dictGet d2 k = none) : dictGet (dictUpdate d1 d2) k = dictGet d1 k := by
  induction d2 generalizing d1 with
  | nil => simp [dictUpdate]
  | cons p rest ih =>
      obtain ⟨k2, v2⟩ := p
      by_cases hk : k2 = k
      · simp [dictGet, hk] at h
      · simp only [dictGet, hk, if_false] at h
        have : dictUpdate d1 ((k2, v2) :: rest) = dictUpdate (dictSet d1 k2 v2) rest := rfl
        rw [this, ih _ h, dictGet_dictSet_other _ _ _ _ hk]

theorem dictGet_dictUpdate_of_some (d1 d2 : Dict) (k : String) (v : OptVal)
    (hnodup : (d2.map Prod.fst).Nodup) (h : dictGet d2 k = some v) :
    dictGet (dictUpdate d1 d2) k = some v := by
  induction d2 generalizing d1 with
  | nil => simp [dictGet] at h
  | cons p rest ih =>
      obtain ⟨k2, v2⟩ := p
      simp only [List.map_cons, List.nodup_cons] at hnodup
      have hstep : dictUpdate d1 ((k2, v2) :: rest) = dictUpdate (dictSet d1 k2 v2) rest := rfl
      by_cases hk : k2 = k
      · subst hk
        simp only [dictGet, if_pos rfl] at h
        have hnone : dictGet rest k2 = none :=
          dictGet_eq_none_of_not_mem rest k2 hnodup.1
        rw [hstep, dictGet_dictUpdate_of_none _ _ _ hnone, dictGet_dictSet_self]
        exact congrArg some (Option.some.inj h)
      · simp only [dictGet, hk, if_false] at h
        rw [hstep, ih _ hnodup.2 h]

/-- Concrete inputs for the scenario claims. -/
def handlerX : Handler :=
  ⟨1, true⟩

def staticHandlerCls : Handler :=
  ⟨0, false⟩

def extFooBar : ExtensionApp :=
  { name := "foo", linked := true, static_paths := [], template_paths := [],
    handlers := [⟨"/bar", handlerX, none⟩], static_url_cfg := none,
    settings := [], configLayers := [CfgLayer.file, CfgLayer.host, CfgLayer.cli] }

def webSrv : WebApp :=
  { base_url := "/srv/", static_handler_class := staticHandlerCls,
    settings := [], handlerBatches := [] }

def extFooStatic : ExtensionApp :=
  { name := "foo", linked := true, static_paths := ["/assets"], template_paths := [],
    handlers := [], static_url_cfg := none, settings := [], configLayers := [] }

def webRoot : WebApp :=
  { base_url := "/", static_handler_class := staticHandlerCls,
    settings := [], handlerBatches := [] }

def extFooBoth : ExtensionApp :=
  { name := "foo", linked := true, static_paths := ["/assets"], template_paths := [],
    handlers := [⟨"/bar", handlerX, none⟩], static_url_cfg := none,
    settings := [], configLayers := [] }

def srvPlain : ServerApp :=
  { web_app := webRoot, extension_points := [], configLayers := [], started := false }

/-- C5: for an Extension named `foo` declaring the single route
`("/bar", HandlerX)` on a Host whose base_url is `/srv/`, after
route registration the route table contains exactly one entry with
pattern `/srv/bar`, bound to HandlerX, which is extension-aware, so the
option `name = "foo"` is injected. -/
theorem scenario_route_rewrite_srv_bar :
    (prepare_handlers extFooBar webSrv).1.routeTable =
      [⟨"/srv/bar", handlerX, [("name", OptVal.str "foo")]⟩] ∧
    handlerX.isExtensionHandlerSubclass = true := by
  decide

/-- C6: for an Extension named `foo` declaring `static_paths = ["/assets"]`
on a Host with base_url `/`, route registration appends exactly one
synthesized entry with pattern `/static/foo/(.*)` serving from the
declared static paths, and the static URL defaults to the base_url joined
with `static/foo/`. -/
theorem scenario_static_route_synthesis :
    (prepare_handlers extFooStatic webRoot).1.routeTable =
      [⟨"/static/foo/(.*)", staticHandlerCls, [("path", OptVal.strList ["/assets"])]⟩] ∧
    extFooStatic.staticUrl webRoot.base_url = url_path_join [webRoot.base_url, "static/foo/"] ∧
    extFooStatic.staticUrl webRoot.base_url = "/static/foo/" := by
  decide

/-- C7 counterexample: running the route-registration step twice for the
same extension produces two identical static-serving entries for the
same static directory set in the host route table, contradicting the
claim that this never happens. -/
theorem static_route_not_idempotent_counterexample :
    ((prepare_handlers extFooStatic (prepare_handlers extFooStatic webRoot).1).1.routeTable.count
      (staticHandlerEntry extFooStatic webRoot)) = 2 := by
  decide

/-- The route table after one registration call is the previous table with
the new batch appended. -/
theorem prepare_handlers_routeTable (ext : ExtensionApp) (w : WebApp) :
    (prepare_handlers ext w).1.routeTable = w.routeTable ++ newHandlers ext w := by
  simp [prepare_handlers, WebApp.routeTable]

/-- Registration changes only the handler batches, so the batch a second
call would build is unchanged. -/
theorem newHandlers_after_prepare (ext ext' : ExtensionApp) (w : WebApp) :
    newHandlers ext (prepare_handlers ext' w).1 = newHandlers ext w :=
  rfl

/-- C7 amended: a single route-registration call appends exactly one
static-serving entry; the step is not idempotent across calls, so a
second call appends a second identical static entry. -/
theorem static_route_once_per_call (ext : ExtensionApp) (w : WebApp)
    (hh : ext.handlers = []) (hs : 0 < ext.static_paths.length) :
    ((prepare_handlers ext w).1.routeTable.count (staticHandlerEntry ext w) =
      w.routeTable.count (staticHandlerEntry ext w) + 1) ∧
    ((prepare_handlers ext (prepare_handlers ext w).1).1.routeTable.count
        (staticHandlerEntry ext w) =
      w.routeTable.count (staticHandlerEntry ext w) + 2) := by
  have hone : newHandlers ext w = [staticHandlerEntry ext w] := by
    simp [newHandlers, hh, hs]
  constructor
  · rw [prepare_handlers_routeTable, hone]
    simp [List.count_append]
  · rw [prepare_handlers_routeTable, newHandlers_after_prepare,
      prepare_handlers_routeTable, hone]
    simp [List.count_append]

theorem static_route_once_per_call_witness :
    extFooStatic.handlers = [] ∧ 0 < extFooStatic.static_paths.length ∧
    ((prepare_handlers extFooStatic webRoot).1.routeTable.count
        (staticHandlerEntry extFooStatic webRoot) =
      webRoot.routeTable.count (staticHandlerEntry extFooStatic webRoot) + 1) :=
  ⟨rfl, by decide,
   (static_route_once_per_call extFooStatic webRoot rfl (by decide)).1⟩

/-- C4: one registration call for an Extension declaring N routes and M
static directories produces a single batch, appended whole to the host
route table by one add_handlers call, consisting of exactly the N
rewritten routes in declaration order followed by one synthesized static
entry when M is positive and nothing otherwise. -/
theorem register_routes_batch_shape (ext : ExtensionApp) (w : WebApp) :
    (prepare_handlers ext w).1.handlerBatches = w.handlerBatches ++ [newHandlers ext w] ∧
    (prepare_handlers ext w).1.routeTable = w.routeTable ++ newHandlers ext w ∧
    (prepare_handlers ext w).2 = [Ev.hookHandlers, Ev.addHandlers (newHandlers ext w).length] ∧
    (newHandlers ext w).length =
      ext.handlers.length + (if 0 < ext.static_paths.length then 1 else 0) ∧
    (∀ i (hi : i < ext.handlers.length),
      (newHandlers ext w)[i]? =
        some (buildHandlerEntry ext.name w.base_url ext.handlers[i])) ∧
    (0 < ext.static_paths.length →
      (newHandlers ext w)[ext.handlers.length]? = some (staticHandlerEntry ext w)) := by
  refine ⟨rfl, prepare_handlers_routeTable ext w, rfl, ?_, ?_, ?_⟩
  · by_cases h : 0 < ext.static_paths.length <;> simp [newHandlers, h]
  · intro i hi
    have hm : i < (ext.handlers.map (buildHandlerEntry ext.name w.base_url)).length := by
      simpa using hi
    have hmap : (ext.handlers.map (buildHandlerEntry ext.name w.base_url))[i]? =
        some (buildHandlerEntry ext.name w.base_url ext.handlers[i]) := by
      rw [List.getElem?_map, List.getElem?_eq_getElem hi]
      rfl
    by_cases h : 0 < ext.static_paths.length
    · rw [newHandlers, if_pos h, List.getElem?_append_left hm, hmap]
    · rw [newHandlers, if_neg h, hmap]
  · intro h
    have hlen : ext.handlers.length =
        (ext.handlers.map (buildHandlerEntry ext.name w.base_url)).length := by simp
    rw [newHandlers, if_pos h, hlen,
      List.getElem?_append_right (Nat.le_refl _)]
    simp

theorem register_routes_batch_shape_witness :
    (newHandlers extFooBoth webRoot).length = 2 ∧
    (newHandlers extFooBoth webRoot)[0]? =
      some (buildHandlerEntry "foo" "/" ⟨"/bar", handlerX, none⟩) ∧
    (newHandlers extFooBoth webRoot)[1]? = some (staticHandlerEntry extFooBoth webRoot) :=
  ⟨by rw [(register_routes_batch_shape extFooBoth webRoot).2.2.2.1]; decide,
   (register_routes_batch_shape extFooBoth webRoot).2.2.2.2.1 0 (by decide),
   (register_routes_batch_shape extFooBoth webRoot).2.2.2.2.2 (by decide)⟩

/-- C10: when a declared route tuple carries an explicit third options
element, every explicit binding overrides the injected defaults in the
registered entry; in particular an explicit `name` binding overrides the
automatically injected extension name. -/
theorem explicit_options_override_injected
    (n burl p k : String) (h : Handler) (d : Dict) (v : OptVal)
    (hnodup : (d.map Prod.fst).Nodup) (hget : dictGet d k = some v) :
    dictGet (buildHandlerEntry n burl ⟨p, h, some d⟩).options k = some v := by
  show dictGet (dictUpdate
    (if h.isExtensionHandlerSubclass then dictSet [] "name" (OptVal.str n) else []) d) k = some v
  exact dictGet_dictUpdate_of_some _ _ _ _ hnodup hget

theorem explicit_options_override_injected_witness :
    (([("name", OptVal.str "bar")].map (Prod.fst (α := String) (β := OptVal))).Nodup) ∧
    dictGet [("name", OptVal.str "bar")] "name" = some (OptVal.str "bar") ∧
    dictGet (buildHandlerEntry "foo" "/"
      ⟨"/x", handlerX, some [("name", OptVal.str "bar")]⟩).options "name" =
      some (OptVal.str "bar") :=
  ⟨by decide, by decide,
   explicit_options_override_injected "foo" "/" "/x" "name" handlerX
     [("name", OptVal.str "bar")] (OptVal.str "bar") (by decide) (by decide)⟩

def clsFoo : ExtClass :=
  ⟨"foo", ["/assets"], [], [⟨"/bar", handlerX, none⟩], none⟩

def clsLoaded : ExtClass :=
  ⟨"foo", [], [], [⟨"/bar", handlerX, none⟩], none⟩

def webWithBar : WebApp :=
  { base_url := "/", static_handler_class := staticHandlerCls, settings := [],
    handlerBatches := [[⟨"/bar", handlerX, [("name", OptVal.str "foo")]⟩]] }

def srvWithFoo : ServerApp :=
  { web_app := webWithBar, extension_points := [("foo", extFooBar)],
    configLayers := [CfgLayer.ext], started := false }

def extUnlinked : ExtensionApp :=
  { name := "foo", linked := false, static_paths := [], template_paths := [],
    handlers := [], static_url_cfg := none, settings := [], configLayers := [] }

def plainAppClass : AppClass :=
  ⟨[]⟩

/-- C2: `_link_jupyter_server_extension` performs its effects in exactly
the order: set the linked host reference, load the extension config file
layer, merge host config into extension config, parse the residual
command line scoped to the extension, merge extension config into host
config.  On a fresh load the host-to-extension merge completes before
any derived setting is computed (every `initialize` effect follows the
whole link sequence) and the extension-to-host merge follows the
host-to-extension merge. -/
theorem link_effect_order :
    (∀ (ext : ExtensionApp) (s : ServerApp),
      (ExtensionApp.linkOp ext s).2.2 =
        [Ev.setServerapp, Ev.loadConfigFile, Ev.updateConfigFromServer,
         Ev.parseCommandLine, Ev.serverUpdateConfig] ∧
      (ExtensionApp.linkOp ext s).1.configLayers =
        ext.configLayers ++ [CfgLayer.file, CfgLayer.host, CfgLayer.cli] ∧
      (ExtensionApp.linkOp ext s).2.1.configLayers = s.configLayers ++ [CfgLayer.ext] ∧
      (ExtensionApp.linkOp ext s).1.linked = true) ∧
    (∀ (cls : ExtClass) (s : ServerApp),
      lookupRegistry s.extension_points cls.name = none →
      ((cls.loadOp s).events.filter (fun e => !e.isAddHandlers) =
        [Ev.constructExtension, Ev.setServerapp, Ev.loadConfigFile,
         Ev.updateConfigFromServer, Ev.parseCommandLine, Ev.serverUpdateConfig,
         Ev.prepareConfig, Ev.hookTemplates, Ev.hookSettings, Ev.hookHandlers] ∧
       (cls.loadOp s).events.map Ev.isAddHandlers =
        [false, false, false, false, false, false, false, false, false, false, true])) := by
  constructor
  · intro ext s
    refine ⟨rfl, ?_, rfl, rfl⟩
    simp [ExtensionApp.linkOp]
  · intro cls s h
    constructor <;>
      simp [ExtClass.loadOp, h, ExtensionApp.linkOp, ExtensionApp.initializeOp,
        prepare_config, prepare_templates, prepare_settings, prepare_handlers,
        ExtClass.new, Ev.isAddHandlers]

theorem link_effect_order_witness :
    lookupRegistry srvPlain.extension_points clsFoo.name = none ∧
    (clsFoo.loadOp srvPlain).events.filter (fun e => !e.isAddHandlers) =
      [Ev.constructExtension, Ev.setServerapp, Ev.loadConfigFile,
       Ev.updateConfigFromServer, Ev.parseCommandLine, Ev.serverUpdateConfig,
       Ev.prepareConfig, Ev.hookTemplates, Ev.hookSettings, Ev.hookHandlers] :=
  ⟨rfl, (link_effect_order.2 clsFoo srvPlain rfl).1⟩

/-- C1 counterexample: loading an extension whose name is already held by
the registry still emits an add_handlers call and grows the route table,
so configure/registerRoutes is re-run, contrary to the claim. -/
theorem load_by_name_reruns_initialize_counterexample :
    lookupRegistry srvWithFoo.extension_points clsLoaded.name = some extFooBar ∧
    (clsLoaded.loadOp srvWithFoo).events.any Ev.isAddHandlers = true ∧
    (clsLoaded.loadOp srvWithFoo).server.web_app.routeTable.length = 2 := by
  decide

/-- C1 amended: loading by a name that is already registered yields the
registry instance itself (no new construction, no re-link, no duplicate
registry entry), but initialize, and with it configure/registerRoutes,
is re-run on the existing instance. -/
theorem load_by_name_reuses_instance (cls : ExtClass) (s : ServerApp) (e : ExtensionApp)
    (hreg : lookupRegistry s.extension_points cls.name = some e) :
    cls.loadOp s = e.initializeOp s ∧
    Ev.constructExtension ∉ (cls.loadOp s).events ∧
    Ev.setServerapp ∉ (cls.loadOp s).events ∧
    (cls.loadOp s).server.extension_points = s.extension_points ∧
    (e.linked = true → (cls.loadOp s).events.any Ev.isAddHandlers = true) := by
  have h1 : cls.loadOp s = e.initializeOp s := by
    simp [ExtClass.loadOp, hreg]
  refine ⟨h1, ?_, ?_, ?_, ?_⟩
  · rw [h1]
    by_cases hl : e.linked <;>
      simp [ExtensionApp.initializeOp, hl, prepare_templates, prepare_settings,
        prepare_handlers]
  · rw [h1]
    by_cases hl : e.linked <;>
      simp [ExtensionApp.initializeOp, hl, prepare_templates, prepare_settings,
        prepare_handlers]
  · rw [h1]
    by_cases hl : e.linked <;> simp [ExtensionApp.initializeOp, hl]
  · intro hl
    rw [h1]
    simp [ExtensionApp.initializeOp, hl, prepare_templates, prepare_settings,
      prepare_handlers, Ev.isAddHandlers]

theorem load_by_name_reuses_instance_witness :
    lookupRegistry srvWithFoo.extension_points clsLoaded.name = some extFooBar ∧
    clsLoaded.loadOp srvWithFoo = extFooBar.initializeOp srvWithFoo ∧
    (clsLoaded.loadOp srvWithFoo).server.extension_points = srvWithFoo.extension_points :=
  ⟨by decide,
   (load_by_name_reuses_instance clsLoaded srvWithFoo extFooBar (by decide)).1,
   (load_by_name_reuses_instance clsLoaded srvWithFoo extFooBar (by decide)).2.2.2.1⟩

/-- C3 counterexample: at a concrete linked extension the hook invocation
trace of initialize is templates, settings, handlers — not the claimed
settings, handlers, templates. -/
theorem configure_hook_order_counterexample :
    (extFooBar.initializeOp srvPlain).events.filter Ev.isHook =
      [Ev.hookTemplates, Ev.hookSettings, Ev.hookHandlers] ∧
    ¬((extFooBar.initializeOp srvPlain).events.filter Ev.isHook =
      [Ev.hookSettings, Ev.hookHandlers, Ev.hookTemplates]) := by
  decide

/-- C3 amended: during initialize each of the three extension-supplied
hooks runs exactly once, in the order initializeTemplates,
initializeSettings, initializeHandlers. -/
theorem configure_hook_order (ext : ExtensionApp) (s : ServerApp)
    (hl : ext.linked = true) :
    (ext.initializeOp s).events.filter Ev.isHook =
      [Ev.hookTemplates, Ev.hookSettings, Ev.hookHandlers] ∧
    ((ext.initializeOp s).events.filter Ev.isHook).count Ev.hookTemplates = 1 ∧
    ((ext.initializeOp s).events.filter Ev.isHook).count Ev.hookSettings = 1 ∧
    ((ext.initializeOp s).events.filter Ev.isHook).count Ev.hookHandlers = 1 := by
  have hf : (ext.initializeOp s).events.filter Ev.isHook =
      [Ev.hookTemplates, Ev.hookSettings, Ev.hookHandlers] := by
    simp [ExtensionApp.initializeOp, hl, prepare_templates, prepare_settings,
      prepare_handlers, Ev.isHook]
  refine ⟨hf, ?_, ?_, ?_⟩ <;> rw [hf] <;> decide

theorem configure_hook_order_witness :
    extFooBar.linked = true ∧
    (extFooBar.initializeOp srvPlain).events.filter Ev.isHook =
      [Ev.hookTemplates, Ev.hookSettings, Ev.hookHandlers] :=
  ⟨rfl, (configure_hook_order extFooBar srvPlain rfl).1⟩

/-- C8 counterexample: start (and the standalone route-registration step)
on an unlinked extension fail with an attribute error on the missing
serverapp, which is not the designated precondition error the claim
names. -/
theorem unlinked_precondition_counterexample :
    (extUnlinked.startOp srvPlain).err = some (JErr.attributeError "start") ∧
    Option.map JErr.isPreconditionError (extUnlinked.startOp srvPlain).err = some false ∧
    (extUnlinked.prepareHandlersOp srvPlain).err = some (JErr.attributeError "web_app") ∧
    Option.map JErr.isPreconditionError (extUnlinked.prepareHandlersOp srvPlain).err =
      some false := by
  decide

/-- C8 amended: with no linked host, initialize raises the designated
JupyterServerExtensionException precondition error, while the standalone
route-registration step and start fail immediately with an attribute
error on the missing serverapp; none of the three mutates the extension
or any host state. -/
theorem unlinked_ops_fail_no_mutation (ext : ExtensionApp) (s : ServerApp)
    (h : ext.linked = false) :
    (ext.initializeOp s).err = some (JErr.jupyterServerExtensionException noServerappMsg) ∧
    Option.map JErr.isPreconditionError (ext.initializeOp s).err = some true ∧
    (ext.initializeOp s).ext = ext ∧
    (ext.initializeOp s).server = s ∧
    (ext.prepareHandlersOp s).err = some (JErr.attributeError "web_app") ∧
    (ext.prepareHandlersOp s).ext = ext ∧
    (ext.prepareHandlersOp s).server = s ∧
    (ext.startOp s).err = some (JErr.attributeError "start") ∧
    (ext.startOp s).ext = ext ∧
    (ext.startOp s).server = s := by
  simp [ExtensionApp.initializeOp, ExtensionApp.prepareHandlersOp, ExtensionApp.startOp,
    h, JErr.isPreconditionError]

theorem unlinked_ops_fail_no_mutation_witness :
    extUnlinked.linked = false ∧
    (extUnlinked.initializeOp srvPlain).err =
      some (JErr.jupyterServerExtensionException noServerappMsg) ∧
    (extUnlinked.initializeOp srvPlain).server = srvPlain :=
  ⟨rfl, (unlinked_ops_fail_no_mutation extUnlinked srvPlain rfl).1,
   (unlinked_ops_fail_no_mutation extUnlinked srvPlain rfl).2.2.2.1⟩

/-- C9 counterexample: an argument vector that contains a help flag only
after the first double-hyphen separator is not short-circuited — the
launch proceeds to construct and start a host. -/
theorem launch_help_after_separator_counterexample :
    List.contains ["--", "--help"] "--help" = true ∧
    launch_instance plainAppClass ["--", "--help"] = LaunchOutcome.serverStarted ∧
    (launch_instance plainAppClass ["--", "--help"]).constructsHost = true := by
  decide

/-- C9 amended: when a stopping flag occurs among the arguments before the
first double-hyphen separator and the first argument does not dispatch a
declared subcommand, the launch entry point exits before any host is
constructed. -/
theorem launch_stopping_flag_exits (cls : AppClass) (argv : List String) (f : String)
    (hsub : hasSubcommand cls argv = false)
    (hf : f ∈ ["-h", "--help-all", "--help", "--version", "-V", "--generate-config"])
    (hmem : f ∈ interpretedArgv argv) :
    launch_instance cls argv = LaunchOutcome.exited ∧
    (launch_instance cls argv).constructsHost = false := by
  have hstop : stoppingFlag argv = true := by
    simp only [List.mem_cons, List.not_mem_nil, or_false] at hf
    unfold stoppingFlag
    rcases hf with h | h | h | h | h | h <;> subst h
    · have hh : helpRequested (interpretedArgv argv) = true :=
        List.any_eq_true.mpr ⟨"-h", hmem, by decide⟩
      simp [hh]
    · have hh : helpRequested (interpretedArgv argv) = true :=
        List.any_eq_true.mpr ⟨"--help-all", hmem, by decide⟩
      simp [hh]
    · have hh : helpRequested (interpretedArgv argv) = true :=
        List.any_eq_true.mpr ⟨"--help", hmem, by decide⟩
      simp [hh]
    · have hh : versionRequested (interpretedArgv argv) = true := by
        simp only [versionRequested, Bool.or_eq_true]
        exact Or.inl (List.elem_eq_true_of_mem hmem)
      simp [hh]
    · have hh : versionRequested (interpretedArgv argv) = true := by
        simp only [versionRequested, Bool.or_eq_true]
        exact Or.inr (List.elem_eq_true_of_mem hmem)
      simp [hh]
    · have hh : generateConfigRequested (interpretedArgv argv) = true :=
        List.elem_eq_true_of_mem hmem
      simp [hh]
  simp [launch_instance, hsub, hstop, LaunchOutcome.constructsHost]

theorem launch_stopping_flag_exits_witness :
    hasSubcommand plainAppClass ["--help"] = false ∧
    launch_instance plainAppClass ["--help"] = LaunchOutcome.exited :=
  ⟨by decide,
   (launch_stopping_flag_exits plainAppClass ["--help"] "--help"
     (by decide) (by decide) (by decide)).1⟩

end JupyterExt
